import Mathlib

/-!
Verification of the Realtime Notification Service core
(src/services/notificationQueue.js, src/services/clientManager.js,
src/websocket/wsServer.js, src/errors/customErrors.js) against its
natural-language specification.

The JavaScript source is shallowly embedded: each class's mutable fields
become a structure, each method a pure function threading that structure;
methods that throw return `Except`.  Millisecond timestamps (Date.now())
are passed in explicitly as `Nat` arguments.  JavaScript `Array.sort` is
stable, so the queue's sort is `List.mergeSort`.
-/

namespace NotifSvc

/-- The error classes of src/errors/customErrors.js that the modelled code
throws (ValidationError, AuthenticationError, QueueFullError). -/
inductive SvcError where
  | validation
  | authentication
  | queueFull
  deriving Repr, DecidableEq

instance {ε α : Type} [DecidableEq ε] [DecidableEq α] :
    DecidableEq (Except ε α) := fun x y =>
  match x, y with
  | .ok a, .ok b =>
    if h : a = b then isTrue (by rw [h])
    else isFalse (by intro hc; cases hc; exact h rfl)
  | .error a, .error b =>
    if h : a = b then isTrue (by rw [h])
    else isFalse (by intro hc; cases hc; exact h rfl)
  | .ok _, .error _ => isFalse (by intro hc; cases hc)
  | .error _, .ok _ => isFalse (by intro hc; cases hc)

/-- A notification object as the queue sees it: `id` and `channel` are
strings (falsy iff empty), `hasData` models the truthiness of `data`
(the payload itself is opaque), `priority` is `none` when the field is
absent (undefined). -/
structure Notification where
  id : String
  channel : String
  hasData : Bool
  priority : Option Int
  deriving Repr, DecidableEq

/-- JavaScript `p || d` for a number-or-undefined `p`: undefined and 0 are
falsy, any other number is kept. -/
def jsOrDefault (p : Option Int) (d : Int) : Int :=
  match p with
  | none => d
  | some v => if v = 0 then d else v

/-- JavaScript `s || d` for a non-negative count-or-undefined `s`. -/
def jsOrNat (s : Option Nat) (d : Nat) : Nat :=
  match s with
  | none => d
  | some v => if v = 0 then d else v

/-- A queue entry as built by NotificationQueue#enqueue (lines 40-47). -/
structure QueueItem where
  id : String
  notification : Notification
  priority : Int
  enqueuedAt : Nat
  expiresAt : Nat
  attempts : Nat
  deriving Repr, DecidableEq

/-- The NotificationQueue instance state: the backing array and the two
configuration values read in the constructor. -/
structure NotificationQueue where
  queue : List QueueItem
  maxSize : Nat
  messageExpiry : Nat
  deriving Repr, DecidableEq

/-- A fresh queue as the constructor builds it (empty array, configured
maxQueueSize and messageExpiry). -/
def emptyQueue (maxSize messageExpiry : Nat) : NotificationQueue :=
  { queue := [], maxSize := maxSize, messageExpiry := messageExpiry }

/-- NotificationQueue##validateNotification (lines 132-154): id, channel
and data must be truthy; a defined priority must lie in [1,10]. -/
def validateNotification (n : Notification) : Except SvcError Unit :=
  if n.id = "" then .error .validation
  else if n.channel = "" then .error .validation
  else if ¬ n.hasData then .error .validation
  else
    match n.priority with
    | none => .ok ()
    | some p => if p < 1 ∨ p > 10 then .error .validation else .ok ()

/-- The comparator of NotificationQueue##sortQueue (lines 159-166) read as
a total boolean order: `a` may precede `b` iff `a` has strictly higher
priority, or equal priority and no later `enqueuedAt`. -/
def itemLE (a b : QueueItem) : Bool :=
  if a.priority = b.priority then a.enqueuedAt ≤ b.enqueuedAt
  else b.priority < a.priority

/-- NotificationQueue##sortQueue: JavaScript Array.sort is stable, so the
sort is a stable merge sort under the comparator. -/
def sortQueue (l : List QueueItem) : List QueueItem :=
  l.mergeSort itemLE

/-- NotificationQueue#enqueue (lines 33-59): validate, reject when
`length >= maxSize`, otherwise wrap the notification
(`priority: notification.priority || 5`, fresh timestamps, `attempts: 0`),
push and re-sort.  A thrown error leaves the instance untouched (all
mutations happen after both checks), so the error branch carries no state. -/
def enqueue (q : NotificationQueue) (n : Notification) (now : Nat) :
    Except SvcError (QueueItem × NotificationQueue) :=
  match validateNotification n with
  | .error e => .error e
  | .ok _ =>
    if q.maxSize ≤ q.queue.length then .error .queueFull
    else
      let item : QueueItem :=
        { id := n.id
          notification := n
          priority := jsOrDefault n.priority 5
          enqueuedAt := now
          expiresAt := now + q.messageExpiry
          attempts := 0 }
      .ok (item, { q with queue := sortQueue (q.queue ++ [item]) })

/-- NotificationQueue#dequeue (lines 64-75): drop every item whose
`expiresAt` is not in the future, then shift the head. -/
def dequeue (q : NotificationQueue) (now : Nat) :
    Option QueueItem × NotificationQueue :=
  match q.queue.filter (fun it => now < it.expiresAt) with
  | [] => (none, { q with queue := [] })
  | it :: rest => (some it, { q with queue := rest })

/-- The `for` loop of NotificationQueue#dequeueBatch (lines 84-89): `k`
iterations remain, iteration `i` reads the clock as `clock i` (each inner
dequeue calls Date.now() afresh); null results are skipped. -/
def dequeueLoop (clock : Nat → Nat) : Nat → Nat → NotificationQueue →
    List QueueItem × NotificationQueue
  | _, 0, q => ([], q)
  | i, k + 1, q =>
    match dequeue q (clock i) with
    | (some it, q1) =>
      let r := dequeueLoop clock (i + 1) k q1
      (it :: r.1, r.2)
    | (none, q1) =>
      let r := dequeueLoop clock (i + 1) k q1
      (r.1, r.2)

/-- NotificationQueue#dequeueBatch (lines 80-92): the batch size is
`min (size || configured batch size) (current length)`, computed before
any expiry filtering. -/
def dequeueBatch (q : NotificationQueue) (sizeArg : Option Nat)
    (cfgBatchSize : Nat) (clock : Nat → Nat) :
    List QueueItem × NotificationQueue :=
  dequeueLoop clock 0 (min (jsOrNat sizeArg cfgBatchSize) q.queue.length) q

/-- NotificationQueue#peek (lines 97-103). -/
def peek (q : NotificationQueue) : Option QueueItem :=
  q.queue.head?

/-- NotificationQueue#clear (lines 122-127): returns the cleared count. -/
def clear (q : NotificationQueue) : Nat × NotificationQueue :=
  (q.queue.length, { q with queue := [] })

/-- One tick of the cleanup job of NotificationQueue##startCleanupJob
(lines 171-183): the same expiry filter as dequeue. -/
def cleanupSweep (q : NotificationQueue) (now : Nat) : NotificationQueue :=
  { q with queue := q.queue.filter (fun it => now < it.expiresAt) }

/-- The per-priority counters built by the loop in getStats
(lines 192-195): first occurrence of a priority appends a bucket. -/
def addCount : List (Int × Nat) → Int → List (Int × Nat)
  | [], p => [(p, 1)]
  | (p0, c) :: rest, p =>
    if p0 = p then (p0, c + 1) :: rest else (p0, c) :: addCount rest p

/-- The statistics record returned by NotificationQueue#getStats
(lines 188-204).  `utilizationPercent` (a formatted float) is not
modelled; `oldestMessage` is, as the source computes it, `now` minus the
`enqueuedAt` of the LAST element of the sorted backing array. -/
structure QueueStats where
  size : Nat
  maxSize : Nat
  priorityDistribution : List (Int × Nat)
  oldestMessage : Nat
  deriving Repr, DecidableEq

/-- NotificationQueue#getStats (lines 188-204). -/
def getStats (q : NotificationQueue) (now : Nat) : QueueStats :=
  { size := q.queue.length
    maxSize := q.maxSize
    priorityDistribution := q.queue.foldl (fun m it => addCount m it.priority) []
    oldestMessage :=
      match q.queue.getLast? with
      | some it => now - it.enqueuedAt
      | none => 0 }

/-- A sequence of enqueue calls, each with its Date.now() reading; the
whole sequence succeeds or the first error aborts it. -/
def enqueueAll (q : NotificationQueue) :
    List (Notification × Nat) → Except SvcError NotificationQueue
  | [] => .ok q
  | (n, t) :: rest =>
    match enqueue q n t with
    | .ok r => enqueueAll r.2 rest
    | .error e => .error e

/-- Repeated dequeue at one instant, with fuel. -/
def drainLoop (now : Nat) : Nat → NotificationQueue → List QueueItem
  | 0, _ => []
  | k + 1, q =>
    match dequeue q now with
    | (some it, q1) => it :: drainLoop now k q1
    | (none, _) => []

/-- Everything repeated dequeue returns at one instant. -/
def drain (q : NotificationQueue) (now : Nat) : List QueueItem :=
  drainLoop now q.queue.length q

/-- The effective priority a submission is queued at
(`notification.priority || 5`). -/
def effPriority (n : Notification) : Int :=
  jsOrDefault n.priority 5

/-- The sub-array of queue entries at one priority, in array order. -/
def bandFilter (p : Int) (l : List QueueItem) : List QueueItem :=
  l.filter (fun it => it.priority == p)

/-- The monotone-clock guard for a list of timed enqueue calls: each
Date.now() reading is at least the bound and they are weakly increasing. -/
def timesMonotone (t : Nat) : List (Notification × Nat) → Bool
  | [] => true
  | (_, t0) :: rest => t ≤ t0 && timesMonotone t0 rest

theorem itemLE_trans (a b c : QueueItem) (h1 : itemLE a b = true)
    (h2 : itemLE b c = true) : itemLE a c = true := by
  simp only [itemLE] at *
  split at h1 <;> split at h2 <;> split <;> simp_all <;> omega

theorem itemLE_total (a b : QueueItem) : (itemLE a b || itemLE b a) = true := by
  simp only [itemLE]
  split <;> split <;> simp_all <;> omega

theorem itemLE_priority (a b : QueueItem) (h : itemLE a b = true) :
    b.priority ≤ a.priority := by
  simp only [itemLE] at h
  split at h <;> simp_all <;> omega

theorem sortQueue_perm (l : List QueueItem) : (sortQueue l).Perm l :=
  List.mergeSort_perm l itemLE

theorem mem_sortQueue (x : QueueItem) (l : List QueueItem) :
    x ∈ sortQueue l ↔ x ∈ l :=
  (sortQueue_perm l).mem_iff

theorem sortQueue_sorted (l : List QueueItem) :
    (sortQueue l).Pairwise (fun a b => itemLE a b = true) :=
  List.sorted_mergeSort itemLE_trans itemLE_total l

theorem length_sortQueue (l : List QueueItem) :
    (sortQueue l).length = l.length :=
  (sortQueue_perm l).length_eq

/-- Stability of the re-sort after a push: every priority band of the
re-sorted array is exactly the band of the pre-sort array (old entries in
their old order, the pushed entry last), provided the old array was sorted
and the pushed entry's `enqueuedAt` is no earlier than the old entries'. -/
theorem bandFilter_sortQueue_append (l : List QueueItem) (y : QueueItem)
    (hs : l.Pairwise (fun a b => itemLE a b = true))
    (hb : ∀ x ∈ l, x.enqueuedAt ≤ y.enqueuedAt) (p : Int) :
    bandFilter p (sortQueue (l ++ [y])) = bandFilter p (l ++ [y]) := by
  have hcpair : (bandFilter p (l ++ [y])).Pairwise (fun a b => itemLE a b = true) := by
    simp only [bandFilter, List.filter_append]
    rw [List.pairwise_append]
    refine ⟨List.Pairwise.sublist (List.filter_sublist l) hs, ?_, ?_⟩
    · cases h : List.filter (fun it => it.priority == p) [y] with
      | nil => exact List.Pairwise.nil
      | cons a t =>
        simp only [List.filter, List.filter_nil] at h
        split at h
        · cases h; exact List.pairwise_singleton _ _
        · cases h
    · intro a ha b hb2
      have ha' := List.mem_filter.mp ha
      have hb' := List.mem_filter.mp hb2
      have hby : b = y := by
        have := hb'.1
        simp at this
        exact this
      have hap : a.priority = p := by simpa using ha'.2
      have hbp : b.priority = p := by simpa using hb'.2
      simp only [itemLE, hap, hbp, if_pos rfl]
      subst hby
      simpa using hb a ha'.1
  have hsubl : List.Sublist (bandFilter p (l ++ [y])) (l ++ [y]) :=
    List.filter_sublist _
  have hstab : List.Sublist (bandFilter p (l ++ [y])) (sortQueue (l ++ [y])) :=
    List.sublist_mergeSort itemLE_trans itemLE_total hcpair hsubl
  have hperm : (bandFilter p (sortQueue (l ++ [y]))).Perm (bandFilter p (l ++ [y])) :=
    (sortQueue_perm (l ++ [y])).filter _
  have hself : (bandFilter p (l ++ [y])).filter (fun it => it.priority == p)
      = bandFilter p (l ++ [y]) := by
    apply List.filter_eq_self.mpr
    intro a ha
    exact (List.mem_filter.mp ha).2
  have hsub2 : List.Sublist (bandFilter p (l ++ [y]))
      (bandFilter p (sortQueue (l ++ [y]))) := by
    have := hstab.filter (fun it => it.priority == p)
    rwa [hself] at this
  exact (hsub2.eq_of_length (by rw [hperm.length_eq])).symm

theorem bandFilter_singleton (p : Int) (y : QueueItem) :
    bandFilter p [y] = if y.priority = p then [y] else [] := by
  simp only [bandFilter, List.filter, List.filter_nil]
  split <;> rename_i h <;> simp_all

/-- What a successful enqueue produces, read off the source: the returned
item's fields and the new state. -/
theorem enqueue_ok_spec (q : NotificationQueue) (n : Notification) (now : Nat)
    (item : QueueItem) (q1 : NotificationQueue)
    (h : enqueue q n now = .ok (item, q1)) :
    item.id = n.id ∧ item.priority = effPriority n ∧ item.enqueuedAt = now ∧
    item.attempts = 0 ∧ item.expiresAt = now + q.messageExpiry ∧
    q1.queue = sortQueue (q.queue ++ [item]) ∧ q1.maxSize = q.maxSize ∧
    q1.messageExpiry = q.messageExpiry ∧ q.queue.length < q.maxSize := by
  unfold enqueue at h
  split at h
  · cases h
  · split at h
    · cases h
    · rename_i hfull
      simp only [Except.ok.injEq, Prod.mk.injEq] at h
      obtain ⟨hitem, hq1⟩ := h
      subst hitem
      subst hq1
      refine ⟨rfl, rfl, rfl, rfl, rfl, rfl, rfl, rfl, ?_⟩
      omega

/-- The FIFO/priority invariant carried across a sequence of enqueues:
the result is sorted by the comparator and each priority band lists, after
the starting state's entries, exactly the submissions of that effective
priority in submission order. -/
theorem enqueueAll_bands (inputs : List (Notification × Nat)) :
    ∀ (q q1 : NotificationQueue) (t : Nat),
    q.queue.Pairwise (fun a b => itemLE a b = true) →
    (∀ x ∈ q.queue, x.enqueuedAt ≤ t) →
    timesMonotone t inputs = true →
    enqueueAll q inputs = .ok q1 →
    q1.queue.Pairwise (fun a b => itemLE a b = true) ∧
    ∀ p : Int, (bandFilter p q1.queue).map (fun it => it.id)
      = (bandFilter p q.queue).map (fun it => it.id)
        ++ (inputs.filter (fun x => effPriority x.1 == p)).map (fun x => x.1.id) := by
  induction inputs with
  | nil =>
    intro q q1 t hs _ _ henq
    simp only [enqueueAll, Except.ok.injEq] at henq
    subst henq
    exact ⟨hs, fun p => by simp⟩
  | cons head rest ih =>
    intro q q1 t hs hb hmono henq
    obtain ⟨n, t0⟩ := head
    simp only [enqueueAll] at henq
    split at henq
    · rename_i r henqok
      obtain ⟨item, q2⟩ := r
      obtain ⟨hid, hpr, henqAt, _, _, hq2, _, _, _⟩ :=
        enqueue_ok_spec q n t0 item q2 henqok
      simp only [timesMonotone, Bool.and_eq_true, decide_eq_true_eq] at hmono
      obtain ⟨htt0, hmono'⟩ := hmono
      have hs2 : q2.queue.Pairwise (fun a b => itemLE a b = true) := by
        rw [hq2]; exact sortQueue_sorted _
      have hb2 : ∀ x ∈ q2.queue, x.enqueuedAt ≤ t0 := by
        intro x hx
        rw [hq2, mem_sortQueue, List.mem_append] at hx
        rcases hx with hx | hx
        · exact le_trans (hb x hx) htt0
        · simp only [List.mem_singleton] at hx
          subst hx
          omega
      obtain ⟨hs1, hbands1⟩ := ih q2 q1 t0 hs2 hb2 hmono' henq
      refine ⟨hs1, fun p => ?_⟩
      have hstep : bandFilter p q2.queue
          = bandFilter p q.queue ++ bandFilter p [item] := by
        rw [hq2, bandFilter_sortQueue_append q.queue item hs
          (fun x hx => by rw [henqAt]; exact le_trans (hb x hx) htt0) p]
        simp [bandFilter, List.filter_append]
      rw [hbands1 p, hstep]
      simp only [List.map_append, List.append_assoc, List.append_cancel_left_eq]
      rw [bandFilter_singleton, List.filter_cons]
      have hcond : (effPriority n == p) = (item.priority == p) := by rw [hpr]
      by_cases hc : item.priority = p
      · rw [if_pos hc]
        have : (effPriority (n, t0).1 == p) = true := by
          simp only [hcond]; simpa using hc
        rw [this]
        simp [hid]
      · rw [if_neg hc]
        have : (effPriority (n, t0).1 == p) = false := by
          simp only [hcond]; simpa using hc
        rw [this]
        simp
    · cases henq

theorem drainLoop_eq (now : Nat) :
    ∀ (k : Nat) (q : NotificationQueue),
    (q.queue.filter (fun it => now < it.expiresAt)).length ≤ k →
    drainLoop now k q = q.queue.filter (fun it => now < it.expiresAt) := by
  intro k
  induction k with
  | zero =>
    intro q hlen
    simp only [Nat.le_zero, List.length_eq_zero] at hlen
    simp [drainLoop, hlen]
  | succ k ih =>
    intro q hlen
    simp only [drainLoop, dequeue]
    cases hf : q.queue.filter (fun it => now < it.expiresAt) with
    | nil => simp
    | cons it rest =>
      simp only []
      have hrest : ∀ x ∈ rest, (decide (now < x.expiresAt)) = true := by
        intro x hx
        have hx2 : x ∈ q.queue.filter (fun it => now < it.expiresAt) := by
          rw [hf]; exact List.mem_cons_of_mem _ hx
        exact (List.mem_filter.mp hx2).2
      have hrfix : rest.filter (fun it => now < it.expiresAt) = rest :=
        List.filter_eq_self.mpr hrest
      have hlen2 : (rest.filter (fun it => now < it.expiresAt)).length ≤ k := by
        rw [hrfix]
        have : (q.queue.filter (fun it => now < it.expiresAt)).length
            = rest.length + 1 := by rw [hf]; simp
        omega
      have := ih { q with queue := rest } (by simpa using hlen2)
      simp only [] at this
      rw [this]
      simp [hrfix]

theorem drain_eq (q : NotificationQueue) (now : Nat) :
    drain q now = q.queue.filter (fun it => now < it.expiresAt) :=
  drainLoop_eq now q.queue.length q (List.length_filter_le _ _)

/-- The catch branch of NotificationService##processNotification
(notificationQueue.js lines 433-446): on an item-level failure, when the
dequeued wrapper's pre-increment `attempts` is below the retry cap, the
local wrapper's counter is incremented (`item.attempts++`, a write to an
object that is then discarded) and the INNER notification is re-enqueued —
NotificationQueue#enqueue builds a brand-new wrapper with `attempts: 0`.
When the cap is reached the item is dropped.  The retry delay only
schedules the re-enqueue; it does not change the state, so it is not
modelled. -/
def processNotificationFailed (retryAttempts : Nat) (q : NotificationQueue)
    (item : QueueItem) (now : Nat) : NotificationQueue :=
  if item.attempts < retryAttempts then
    match enqueue q item.notification now with
    | .ok r => r.2
    | .error _ => q
  else q

/-- A run of the delivery loop in which every processed item fails:
dequeue, run the failure branch, repeat `k` times; returns how many items
were processed together with the final queue. -/
def failLoop (retryAttempts : Nat) (now : Nat) :
    Nat → NotificationQueue → Nat × NotificationQueue
  | 0, q => (0, q)
  | k + 1, q =>
    match dequeue q now with
    | (some item, q1) =>
      let r := failLoop retryAttempts now k
        (processNotificationFailed retryAttempts q1 item now)
      (r.1 + 1, r.2)
    | (none, q1) => (0, q1)

/-- The operations a caller can run on the queue singleton, each with the
Date.now() values it reads. -/
inductive QOp where
  | enq (n : Notification) (t : Nat)
  | deq (now : Nat)
  | deqBatch (sizeArg : Option Nat) (cfgBatchSize : Nat) (now : Nat)
  | sweep (now : Nat)
  | clearAll

/-- Run one operation, keeping the old state when the call throws. -/
def applyOp (q : NotificationQueue) : QOp → NotificationQueue
  | .enq n t =>
    match enqueue q n t with
    | .ok r => r.2
    | .error _ => q
  | .deq now => (dequeue q now).2
  | .deqBatch s cfg now => (dequeueBatch q s cfg (fun _ => now)).2
  | .sweep now => cleanupSweep q now
  | .clearAll => (clear q).2

def applyOps (q : NotificationQueue) (ops : List QOp) : NotificationQueue :=
  ops.foldl applyOp q

theorem dequeue_length_le (q : NotificationQueue) (now : Nat) :
    (dequeue q now).2.queue.length ≤ q.queue.length := by
  simp only [dequeue]
  cases hf : q.queue.filter (fun it => now < it.expiresAt) with
  | nil => simp
  | cons it rest =>
    have : (q.queue.filter (fun it => now < it.expiresAt)).length ≤ q.queue.length :=
      List.length_filter_le _ _
    rw [hf] at this
    simp at this ⊢
    omega

theorem dequeueLoop_length_le (clock : Nat → Nat) :
    ∀ (k i : Nat) (q : NotificationQueue),
    (dequeueLoop clock i k q).2.queue.length ≤ q.queue.length := by
  intro k
  induction k with
  | zero => intro i q; simp [dequeueLoop]
  | succ k ih =>
    intro i q
    simp only [dequeueLoop]
    cases hd : dequeue q (clock i) with
    | mk it? q1 =>
      have h1 : q1.queue.length ≤ q.queue.length := by
        have := dequeue_length_le q (clock i)
        rw [hd] at this
        exact this
      cases it? with
      | some it => simpa using le_trans (ih (i + 1) q1) h1
      | none => simpa using le_trans (ih (i + 1) q1) h1

theorem applyOp_bound (q : NotificationQueue) (op : QOp)
    (h : q.queue.length ≤ q.maxSize) :
    (applyOp q op).queue.length ≤ (applyOp q op).maxSize ∧
    (applyOp q op).maxSize = q.maxSize := by
  cases op with
  | enq n t =>
    simp only [applyOp]
    cases he : enqueue q n t with
    | ok r =>
      obtain ⟨item, q1⟩ := r
      obtain ⟨_, _, _, _, _, hq1, hmax, _, hlt⟩ := enqueue_ok_spec q n t item q1 he
      constructor
      · rw [hq1, hmax, length_sortQueue]
        simp only [List.length_append, List.length_singleton]
        omega
      · exact hmax
    | error e => exact ⟨h, rfl⟩
  | deq now =>
    refine ⟨?_, ?_⟩
    · have h1 := dequeue_length_le q now
      have h2 : (dequeue q now).2.maxSize = q.maxSize := by
        simp only [dequeue]
        cases q.queue.filter (fun it => now < it.expiresAt) <;> rfl
      simp only [applyOp]
      rw [h2]
      omega
    · simp only [applyOp, dequeue]
      cases q.queue.filter (fun it => now < it.expiresAt) <;> rfl
  | deqBatch s cfg now =>
    have hmax : ∀ (k i : Nat) (q0 : NotificationQueue),
        (dequeueLoop (fun _ => now) i k q0).2.maxSize = q0.maxSize := by
      intro k
      induction k with
      | zero => intro i q0; rfl
      | succ k ih =>
        intro i q0
        simp only [dequeueLoop]
        cases hd : dequeue q0 now with
        | mk it? q1 =>
          have hq1 : q1.maxSize = q0.maxSize := by
            simp only [dequeue] at hd
            cases hf : q0.queue.filter (fun it => now < it.expiresAt) <;>
              rw [hf] at hd <;> cases hd <;> rfl
          cases it? with
          | some it => simpa using (ih (i + 1) q1).trans hq1
          | none => simpa using (ih (i + 1) q1).trans hq1
    refine ⟨?_, ?_⟩
    · simp only [applyOp, dequeueBatch]
      rw [hmax]
      exact le_trans (dequeueLoop_length_le _ _ _ _) h
    · simp only [applyOp, dequeueBatch]
      exact hmax _ _ _
  | sweep now =>
    refine ⟨le_trans (List.length_filter_le _ _) h, rfl⟩
  | clearAll =>
    simp [applyOp, clear]

theorem applyOps_bound (ops : List QOp) :
    ∀ (q : NotificationQueue), q.queue.length ≤ q.maxSize →
    (applyOps q ops).queue.length ≤ (applyOps q ops).maxSize ∧
    (applyOps q ops).maxSize = q.maxSize := by
  induction ops with
  | nil => intro q h; exact ⟨h, rfl⟩
  | cons op rest ih =>
    intro q h
    obtain ⟨h1, h2⟩ := applyOp_bound q op h
    obtain ⟨h3, h4⟩ := ih (applyOp q op) h1
    exact ⟨h3, h4.trans h2⟩

theorem dequeue_some_unexpired (q : NotificationQueue) (now : Nat)
    (it : QueueItem) (q1 : NotificationQueue)
    (h : dequeue q now = (some it, q1)) : now < it.expiresAt := by
  simp only [dequeue] at h
  cases hf : q.queue.filter (fun x => now < x.expiresAt) with
  | nil => rw [hf] at h; cases h
  | cons a rest =>
    rw [hf] at h
    simp only [Prod.mk.injEq, Option.some.injEq] at h
    obtain ⟨ha, _⟩ := h
    subst ha
    have hmem : a ∈ q.queue.filter (fun x => now < x.expiresAt) := by
      rw [hf]; exact List.mem_cons_self a rest
    simpa using (List.mem_filter.mp hmem).2

theorem dequeueLoop_unexpired (clock : Nat → Nat)
    (hclock : ∀ i j, i ≤ j → clock i ≤ clock j) :
    ∀ (k i : Nat) (q : NotificationQueue) (x : QueueItem),
    x ∈ (dequeueLoop clock i k q).1 → clock i < x.expiresAt := by
  intro k
  induction k with
  | zero => intro i q x hx; cases hx
  | succ k ih =>
    intro i q x hx
    simp only [dequeueLoop] at hx
    cases hd : dequeue q (clock i) with
    | mk it? q1 =>
      rw [hd] at hx
      cases it? with
      | some it =>
        simp only [List.mem_cons] at hx
        rcases hx with hx | hx
        · subst hx
          exact dequeue_some_unexpired q (clock i) x q1 hd
        · have := ih (i + 1) q1 x hx
          have hle := hclock i (i + 1) (Nat.le_succ i)
          omega
      | none =>
        have := ih (i + 1) q1 x hx
        have hle := hclock i (i + 1) (Nat.le_succ i)
        omega

/-- The concrete notifications and timings used to instantiate the claim
theorems on small inputs. -/
def nA : Notification := { id := "a", channel := "ch", hasData := true, priority := some 2 }

def nB : Notification := { id := "b", channel := "ch", hasData := true, priority := some 7 }

def nC : Notification := { id := "c", channel := "ch", hasData := true, priority := some 2 }

def nD : Notification := { id := "d", channel := "ch", hasData := true, priority := some 2 }

def nE : Notification := { id := "e", channel := "ch", hasData := true, priority := none }

def inputsC2 : List (Notification × Nat) := [(nA, 0), (nB, 1), (nC, 1), (nD, 2), (nE, 3)]

/-- The queue state reached by running `inputsC2` through enqueue from a
fresh empty queue (maxSize 100, messageExpiry 1000). -/
def qC2 : NotificationQueue :=
  { queue :=
      [ { id := "b", notification := nB, priority := 7, enqueuedAt := 1,
          expiresAt := 1001, attempts := 0 }
      , { id := "e", notification := nE, priority := 5, enqueuedAt := 3,
          expiresAt := 1003, attempts := 0 }
      , { id := "a", notification := nA, priority := 2, enqueuedAt := 0,
          expiresAt := 1000, attempts := 0 }
      , { id := "c", notification := nC, priority := 2, enqueuedAt := 1,
          expiresAt := 1001, attempts := 0 }
      , { id := "d", notification := nD, priority := 2, enqueuedAt := 2,
          expiresAt := 1002, attempts := 0 } ]
    maxSize := 100
    messageExpiry := 1000 }

/-- C2: after any sequence of successful enqueues with weakly increasing
Date.now() readings, the queue array is ordered by non-increasing
priority (so of two unexpired items the strictly higher priority one is
dequeued first, whatever the insertion order); each priority band lists
exactly the submissions of that effective priority in submission order
(FIFO within a band, for any number of same-priority items); and repeated
dequeue returns exactly the unexpired items in array order. -/
theorem c2_priority_order_and_fifo (maxS exp : Nat)
    (inputs : List (Notification × Nat)) (q : NotificationQueue)
    (p : Int) (now : Nat)
    (hmono : timesMonotone 0 inputs = true)
    (henq : enqueueAll (emptyQueue maxS exp) inputs = .ok q) :
    q.queue.Pairwise (fun a b => b.priority ≤ a.priority) ∧
    (bandFilter p q.queue).map (fun it => it.id)
      = (inputs.filter (fun x => effPriority x.1 == p)).map (fun x => x.1.id) ∧
    drain q now = q.queue.filter (fun it => now < it.expiresAt) := by
  obtain ⟨hs, hbands⟩ := enqueueAll_bands inputs (emptyQueue maxS exp) q 0
    List.Pairwise.nil (by intro x hx; cases hx) hmono henq
  refine ⟨?_, ?_, drain_eq q now⟩
  · exact hs.imp (fun h => itemLE_priority _ _ h)
  · have hb := hbands p
    simpa [bandFilter, emptyQueue] using hb

/-- Witness for C2 at the concrete five-submission run `inputsC2`
(three items share priority 2). -/
theorem c2_priority_order_and_fifo_witness :
    qC2.queue.Pairwise (fun a b => b.priority ≤ a.priority) ∧
    (bandFilter 2 qC2.queue).map (fun it => it.id)
      = (inputsC2.filter (fun x => effPriority x.1 == 2)).map (fun x => x.1.id) ∧
    drain qC2 0 = qC2.queue.filter (fun it => 0 < it.expiresAt) :=
  c2_priority_order_and_fifo 100 1000 inputsC2 qC2 2 0 (by decide)
    (by simp [enqueueAll, enqueue, validateNotification, sortQueue,
      List.mergeSort, inputsC2, nA, nB, nC, nD, nE, emptyQueue, jsOrDefault,
      qC2, List.merge, itemLE, List.splitInTwo])

/-- C3: with the queue at (or beyond) capacity, enqueue of a valid
notification fails with QueueFullError — the source throws before any
mutation, so the state is untouched — and the queue size stays within
the configured maximum across any sequence of queue operations. -/
theorem c3_queue_full_bound (q qB : NotificationQueue) (n : Notification)
    (t : Nat) (ops : List QOp)
    (hv : validateNotification n = .ok ())
    (hfull : q.maxSize ≤ q.queue.length)
    (hinit : qB.queue.length ≤ qB.maxSize) :
    enqueue q n t = .error .queueFull ∧
    (applyOps qB ops).queue.length ≤ qB.maxSize := by
  constructor
  · unfold enqueue
    rw [hv]
    simp only [if_pos hfull]
  · obtain ⟨h1, h2⟩ := applyOps_bound ops qB hinit
    rw [← h2]
    exact h1

/-- Witness for C3: a queue of capacity 1 holding one item rejects a valid
notification, and a run of enqueue/dequeue/batch/sweep/clear operations
keeps an initially in-bound queue within its maximum. -/
theorem c3_queue_full_bound_witness :
    enqueue
      { queue := [{ id := "x", notification := nA, priority := 2,
                    enqueuedAt := 0, expiresAt := 1000, attempts := 0 }],
        maxSize := 1, messageExpiry := 1000 } nB 1 = .error .queueFull ∧
    (applyOps (emptyQueue 2 1000)
      [QOp.enq nA 0, QOp.enq nB 1, QOp.enq nC 2, QOp.deq 3,
       QOp.deqBatch none 100 4, QOp.enq nD 5, QOp.sweep 6,
       QOp.clearAll]).queue.length ≤ (emptyQueue 2 1000).maxSize :=
  c3_queue_full_bound
    { queue := [{ id := "x", notification := nA, priority := 2,
                  enqueuedAt := 0, expiresAt := 1000, attempts := 0 }],
      maxSize := 1, messageExpiry := 1000 }
    (emptyQueue 2 1000) nB 1
    [QOp.enq nA 0, QOp.enq nB 1, QOp.enq nC 2, QOp.deq 3,
     QOp.deqBatch none 100 4, QOp.enq nD 5, QOp.sweep 6, QOp.clearAll]
    (by decide) (by decide) (by decide)

/-- C4: dequeue never returns an item whose expiry is not in the future;
dequeue returns null exactly when nothing unexpired remains after the
expiry cleanup; and with a monotone clock (each inner dequeue reads
Date.now() afresh) dequeueBatch never returns an item that was already
expired when the batch call started. -/
theorem c4_no_expired_returns (q qN qB : NotificationQueue) (now nowN : Nat)
    (it itB : QueueItem) (q1 : NotificationQueue) (clock : Nat → Nat)
    (sizeArg : Option Nat) (cfgB : Nat)
    (hdq : dequeue q now = (some it, q1))
    (hclock : ∀ i j, i ≤ j → clock i ≤ clock j)
    (hmem : itB ∈ (dequeueBatch qB sizeArg cfgB clock).1) :
    now < it.expiresAt ∧
    ((dequeue qN nowN).1 = none ↔
      qN.queue.filter (fun x => nowN < x.expiresAt) = []) ∧
    clock 0 < itB.expiresAt := by
  refine ⟨dequeue_some_unexpired q now it q1 hdq, ?_, ?_⟩
  · simp only [dequeue]
    cases hf : qN.queue.filter (fun x => nowN < x.expiresAt) with
    | nil => simp
    | cons a rest => simp
  · exact dequeueLoop_unexpired clock hclock _ 0 qB itB hmem

/-- A live item, an expired item, and the queue holding both, for the C4
witness. -/
def itemLive : QueueItem :=
  { id := "b", notification := nB, priority := 7, enqueuedAt := 1,
    expiresAt := 1001, attempts := 0 }

def itemExpired : QueueItem :=
  { id := "x", notification := nA, priority := 2, enqueuedAt := 0,
    expiresAt := 5, attempts := 0 }

def qC4 : NotificationQueue :=
  { queue := [itemLive, itemExpired], maxSize := 100, messageExpiry := 1000 }

def qC4after : NotificationQueue :=
  { queue := [], maxSize := 100, messageExpiry := 1000 }

/-- Witness for C4: a queue holding one live and one expired item, read
at time 10. -/
theorem c4_no_expired_returns_witness :
    (10 : Nat) < itemLive.expiresAt ∧
    ((dequeue (emptyQueue 2 1000) 0).1 = none ↔
      (emptyQueue 2 1000).queue.filter (fun x => 0 < x.expiresAt) = []) ∧
    (fun i => i + 10 : Nat → Nat) 0 < itemLive.expiresAt :=
  c4_no_expired_returns qC4 (emptyQueue 2 1000) qC4 10 0 itemLive itemLive
    qC4after (fun i => i + 10) none 100
    (by decide) (fun i j h => by show i + 10 ≤ j + 10; omega) (by decide)

/-- The always-failing notification and the queue holding it, used to
exhibit the C1 retry-cap defect. -/
def nFail : Notification :=
  { id := "n1", channel := "alerts", hasData := true, priority := some 5 }

def itemC1 : QueueItem :=
  { id := "n1", notification := nFail, priority := 5, enqueuedAt := 0,
    expiresAt := 1000, attempts := 0 }

def qC1 : NotificationQueue :=
  { queue := [itemC1], maxSize := 100, messageExpiry := 1000 }

/-- C1 (code bug): the retry branch re-enqueues `item.notification`, and
enqueue wraps it in a brand-new QueueItem with `attempts: 0` (the
increment `item.attempts++` mutates only the discarded wrapper), so the
attempt counter never reaches the retry cap.  With the default cap 3, a
notification whose processing always raises is dequeued and processed 10
times across 10 rounds of the failure path — more than the 1 + 3 = 4
processings the claim allows — and is afterwards still queued with
`attempts = 0`, to be re-processed forever. -/
theorem c1_retry_cap_never_drops :
    enqueue (emptyQueue 100 1000) nFail 0 = .ok (itemC1, qC1) ∧
    (failLoop 3 0 10 qC1).1 = 10 ∧
    (failLoop 3 0 10 qC1).2.queue.map (fun it => it.attempts) = [0] := by
  refine ⟨?_, ?_, ?_⟩ <;>
    simp [failLoop, processNotificationFailed, dequeue, enqueue,
      validateNotification, sortQueue, List.mergeSort, qC1, itemC1, nFail,
      emptyQueue, jsOrDefault]

/-!
ClientManager (src/services/clientManager.js).  The two JavaScript Maps
become association lists with unique keys (Map semantics), a JavaScript
Set of strings becomes a duplicate-free list in insertion order.
-/

/-- Map#get: the value at the first (by Map semantics only) entry. -/
def mapGet {β : Type} (m : List (String × β)) (k : String) : Option β :=
  match m.find? (fun e => e.1 == k) with
  | some e => some e.2
  | none => none

/-- Map#set: replace the entry in place, or append a new one. -/
def mapSet {β : Type} (m : List (String × β)) (k : String) (v : β) :
    List (String × β) :=
  match m with
  | [] => [(k, v)]
  | e :: rest => if e.1 == k then (k, v) :: rest else e :: mapSet rest k v

/-- Map#delete: remove the (unique) entry holding the key. -/
def mapDelete {β : Type} (m : List (String × β)) (k : String) :
    List (String × β) :=
  m.filter (fun e => e.1 != k)

/-- Set#add: a no-op when already present, else appended. -/
def setAdd (s : List String) (x : String) : List String :=
  if x ∈ s then s else s ++ [x]

/-- Set#delete. -/
def setDelete (s : List String) (x : String) : List String :=
  s.filter (fun y => y != x)

/-- The per-key stats record (clientManager.js lines 70-75). -/
structure ClientStats where
  totalConnections : Nat
  totalNotifications : Nat
  lastActivity : Nat
  deriving Repr, DecidableEq

/-- The value stored per API key (name, Set of connection ids, stats). -/
structure ClientRecord where
  name : String
  connections : List String
  stats : ClientStats
  deriving Repr, DecidableEq

/-- The value stored per connection (owning key, Set of channels,
connection time); clientManager.js line 146-150. -/
structure ConnectionRecord where
  apiKey : String
  channels : List String
  connectedAt : Nat
  deriving Repr, DecidableEq

/-- The ClientManager instance state: the two private Maps. -/
structure ClientManager where
  apiKeys : List (String × ClientRecord)
  connections : List (String × ConnectionRecord)
  deriving Repr, DecidableEq

/-- ClientManager#validateApiKey (lines 91-112): rejects a falsy key and
a key not present in the map, with AuthenticationError. -/
def validateApiKey (cm : ClientManager) (k : String) : Except SvcError Unit :=
  if k = "" then .error .authentication
  else
    match mapGet cm.apiKeys k with
    | some _ => .ok ()
    | none => .error .authentication

/-- ClientManager#registerConnection (lines 132-159): validate the key,
reject with ValidationError when the key's Set already holds maxClients
connections; otherwise add the connection to the key's Set, bump the
lifetime counter and activity time, and record the connection.  All
mutations follow both checks, so a thrown error leaves the maps
untouched (the error branch carries no state). -/
def registerConnection (cm : ClientManager) (connectionId k : String)
    (maxClients now : Nat) : Except SvcError ClientManager :=
  match validateApiKey cm k with
  | .error e => .error e
  | .ok _ =>
    match mapGet cm.apiKeys k with
    | none => .error .authentication
    | some client =>
      if maxClients ≤ client.connections.length then .error .validation
      else
        .ok { cm with
              apiKeys := mapSet cm.apiKeys k
                { client with
                  connections := setAdd client.connections connectionId
                  stats := { client.stats with
                             totalConnections := client.stats.totalConnections + 1
                             lastActivity := now } }
              connections := mapSet cm.connections connectionId
                { apiKey := k, channels := [], connectedAt := now } }

/-- ClientManager#unregisterConnection (lines 164-184): a no-op returning
false on an unknown id; otherwise deletes the id from the owning key's
Set (when the key still exists) and from the connections map. -/
def unregisterConnection (cm : ClientManager) (connectionId : String) :
    Bool × ClientManager :=
  match mapGet cm.connections connectionId with
  | none => (false, cm)
  | some conn =>
    let apiKeys1 :=
      match mapGet cm.apiKeys conn.apiKey with
      | none => cm.apiKeys
      | some client =>
        mapSet cm.apiKeys conn.apiKey
          { client with connections := setDelete client.connections connectionId }
    (true, { cm with
             apiKeys := apiKeys1
             connections := mapDelete cm.connections connectionId })

/-- ClientManager#subscribeToChannel (lines 189-204): ValidationError on
an unknown connection or a falsy channel name; otherwise adds the
channel to the connection's Set. -/
def subscribeToChannel (cm : ClientManager) (connectionId channel : String) :
    Except SvcError ClientManager :=
  match mapGet cm.connections connectionId with
  | none => .error .validation
  | some conn =>
    if channel = "" then .error .validation
    else
      .ok { cm with
            connections := mapSet cm.connections connectionId
              { conn with channels := setAdd conn.channels channel } }

/-- ClientManager#unsubscribeFromChannel (lines 209-220): false on an
unknown connection; otherwise removes the channel from the Set. -/
def unsubscribeFromChannel (cm : ClientManager) (connectionId channel : String) :
    Bool × ClientManager :=
  match mapGet cm.connections connectionId with
  | none => (false, cm)
  | some conn =>
    (true, { cm with
             connections := mapSet cm.connections connectionId
               { conn with channels := setDelete conn.channels channel } })

/-- ClientManager#getConnectionsByChannel (lines 225-235): walk the
connections map and collect every id whose channel Set holds the
channel. -/
def getConnectionsByChannel (cm : ClientManager) (channel : String) :
    List String :=
  (cm.connections.filter (fun e => e.2.channels.contains channel)).map
    (fun e => e.1)

/-- ClientManager#updateNotificationStats (lines 247-256): a no-op for an
absent key. -/
def updateNotificationStats (cm : ClientManager) (k : String) (now : Nat) :
    ClientManager :=
  match mapGet cm.apiKeys k with
  | none => cm
  | some client =>
    { cm with
      apiKeys := mapSet cm.apiKeys k
        { client with
          stats := { client.stats with
                     totalNotifications := client.stats.totalNotifications + 1
                     lastActivity := now } } }

/-- ClientManager#revokeApiKey (lines 278-298): ValidationError on an
unknown key; otherwise deletes every connection id in the key's Set from
the connections map, then deletes the key. -/
def revokeApiKey (cm : ClientManager) (k : String) :
    Except SvcError ClientManager :=
  match mapGet cm.apiKeys k with
  | none => .error .validation
  | some client =>
    .ok { cm with
          apiKeys := mapDelete cm.apiKeys k
          connections := client.connections.foldl
            (fun m c => mapDelete m c) cm.connections }

/-- The registry operations whose interleavings the invariant claims
range over. -/
inductive RegOp where
  | reg (cid k : String) (maxClients now : Nat)
  | unreg (cid : String)
  | sub (cid ch : String)
  | unsub (cid ch : String)
  | revoke (k : String)

/-- Run one registry operation, keeping the old state when the call
throws. -/
def applyRegOp (cm : ClientManager) : RegOp → ClientManager
  | .reg cid k m now =>
    match registerConnection cm cid k m now with
    | .ok cm1 => cm1
    | .error _ => cm
  | .unreg cid => (unregisterConnection cm cid).2
  | .sub cid ch =>
    match subscribeToChannel cm cid ch with
    | .ok cm1 => cm1
    | .error _ => cm
  | .unsub cid ch => (unsubscribeFromChannel cm cid ch).2
  | .revoke k =>
    match revokeApiKey cm k with
    | .ok cm1 => cm1
    | .error _ => cm

def applyRegOps (cm : ClientManager) (ops : List RegOp) : ClientManager :=
  ops.foldl applyRegOp cm

theorem validateApiKey_ok (cm : ClientManager) (k : String)
    (client : ClientRecord) (hk : mapGet cm.apiKeys k = some client)
    (hne : k ≠ "") : validateApiKey cm k = .ok () := by
  unfold validateApiKey
  rw [if_neg hne, hk]

/-- C5: for a known API key whose connection Set is at (or beyond) the
per-key limit, registerConnection fails with ValidationError — the source
throws before any mutation, so the key's Set, its lifetime counter and
the connections map are untouched (the error branch carries no state) —
while for a known key under the limit it succeeds, adds the connection to
the key's Set, bumps the lifetime connection counter and the activity
time, and records the connection under that key. -/
theorem c5_register_connection_limit (cm cmU : ClientManager)
    (cid k cidU kU : String) (maxClients now maxU nowU : Nat)
    (client clientU : ClientRecord)
    (hk : mapGet cm.apiKeys k = some client) (hne : k ≠ "")
    (hfull : maxClients ≤ client.connections.length)
    (hkU : mapGet cmU.apiKeys kU = some clientU) (hneU : kU ≠ "")
    (hroom : clientU.connections.length < maxU) :
    registerConnection cm cid k maxClients now = .error .validation ∧
    registerConnection cmU cidU kU maxU nowU = .ok
      { cmU with
        apiKeys := mapSet cmU.apiKeys kU
          { clientU with
            connections := setAdd clientU.connections cidU
            stats := { clientU.stats with
                       totalConnections := clientU.stats.totalConnections + 1
                       lastActivity := nowU } }
        connections := mapSet cmU.connections cidU
          { apiKey := kU, channels := [], connectedAt := nowU } } := by
  constructor
  · unfold registerConnection
    rw [validateApiKey_ok cm k client hk hne, hk]
    simp [hfull]
  · unfold registerConnection
    rw [validateApiKey_ok cmU kU clientU hkU hneU, hkU]
    simp [Nat.not_le.mpr hroom]

/-- The registry states used to instantiate C5 and C6: one key at its
limit of 1 with connection c0 subscribed to channel news, one key with
room. -/
def stats0 : ClientStats :=
  { totalConnections := 0, totalNotifications := 0, lastActivity := 0 }

def recC0 : ConnectionRecord :=
  { apiKey := "k1", channels := ["news"], connectedAt := 0 }

def cmAtLimit : ClientManager :=
  { apiKeys := [("k1", { name := "cl", connections := ["c0"], stats := stats0 })]
    connections := [("c0", recC0)] }

def cmUnder : ClientManager :=
  { apiKeys := [("k2", { name := "cl2", connections := [], stats := stats0 })]
    connections := [] }

def clientK1 : ClientRecord :=
  { name := "cl", connections := ["c0"], stats := stats0 }

def clientK2 : ClientRecord :=
  { name := "cl2", connections := [], stats := stats0 }

/-- Witness for C5 at a key holding 1 of maximal 1 connections and a key
holding 0 of maximal 1000. -/
theorem c5_register_connection_limit_witness :
    registerConnection cmAtLimit "c1" "k1" 1 7 = .error .validation ∧
    registerConnection cmUnder "c1" "k2" 1000 7 = .ok
      { cmUnder with
        apiKeys := mapSet cmUnder.apiKeys "k2"
          { clientK2 with
            connections := setAdd clientK2.connections "c1"
            stats := { clientK2.stats with
                       totalConnections := clientK2.stats.totalConnections + 1
                       lastActivity := 7 } }
        connections := mapSet cmUnder.connections "c1"
          { apiKey := "k2", channels := [], connectedAt := 7 } } :=
  c5_register_connection_limit cmAtLimit cmUnder "c1" "k1" "c1" "k2" 1 7 1000 7
    clientK1 clientK2 (by decide) (by decide) (by decide) (by decide)
    (by decide) (by decide)

theorem mem_map_fst_filter {β : Type} (q : String × β → Bool)
    (l : List (String × β)) (c : String)
    (h : c ∈ (l.filter q).map (fun e => e.1)) : c ∈ l.map Prod.fst := by
  simp only [List.mem_map] at h ⊢
  obtain ⟨e, he, hfst⟩ := h
  exact ⟨e, (List.mem_filter.mp he).1, hfst⟩

theorem mapGet_none_not_key {β : Type} (l : List (String × β)) (c : String)
    (h : mapGet l c = none) : c ∉ l.map Prod.fst := by
  unfold mapGet at h
  cases hf : l.find? (fun e => e.1 == c) with
  | some e => rw [hf] at h; cases h
  | none =>
    intro hmem
    simp only [List.mem_map] at hmem
    obtain ⟨e, he, hfst⟩ := hmem
    have := List.find?_eq_none.mp hf e he
    simp [hfst] at this

theorem mem_mapDelete_ne {β : Type} (m : List (String × β)) (k : String)
    (e : String × β) (h : e ∈ mapDelete m k) : e ∈ m ∧ e.1 ≠ k := by
  unfold mapDelete at h
  have h2 := List.mem_filter.mp h
  refine ⟨h2.1, ?_⟩
  simpa using h2.2

theorem mem_foldl_mapDelete {β : Type} :
    ∀ (L : List String) (m : List (String × β)) (e : String × β),
    e ∈ L.foldl (fun acc c => mapDelete acc c) m → e ∈ m ∧ e.1 ∉ L := by
  intro L
  induction L with
  | nil => intro m e h; exact ⟨h, by simp⟩
  | cons x L ih =>
    intro m e h
    simp only [List.foldl_cons] at h
    obtain ⟨h1, h2⟩ := ih (mapDelete m x) e h
    obtain ⟨h3, h4⟩ := mem_mapDelete_ne m x e h1
    refine ⟨h3, ?_⟩
    simp only [List.mem_cons, not_or]
    exact ⟨h4, h2⟩

/-- The channel view is, at every state, exactly the connections-map
entries whose channel Set holds the channel. -/
theorem mem_getConnectionsByChannel (cm : ClientManager) (ch c : String)
    (hnd : (cm.connections.map Prod.fst).Nodup) :
    c ∈ getConnectionsByChannel cm ch ↔
      ∃ r, mapGet cm.connections c = some r ∧ ch ∈ r.channels := by
  unfold getConnectionsByChannel
  have main : ∀ (l : List (String × ConnectionRecord)),
      (l.map Prod.fst).Nodup →
      ((c ∈ (l.filter (fun e => e.2.channels.contains ch)).map (fun e => e.1)) ↔
        ∃ r, mapGet l c = some r ∧ ch ∈ r.channels) := by
    intro l
    induction l with
    | nil => intro _; simp [mapGet]
    | cons e rest ih =>
      intro hnd0
      simp only [List.map_cons, List.nodup_cons] at hnd0
      obtain ⟨hout, hnd1⟩ := hnd0
      have hget : mapGet (e :: rest) c =
          if e.1 == c then some e.2 else mapGet rest c := by
        unfold mapGet
        cases hb : (e.1 == c) with
        | true => simp [List.find?_cons, hb]
        | false => simp [List.find?_cons, hb]
      rw [hget, List.filter_cons]
      cases hb : (e.1 == c) with
      | true =>
        have hec : e.1 = c := by simpa using hb
        cases hq : e.2.channels.contains ch with
        | true =>
          simp only [hb, hq, if_true, List.map_cons, List.mem_cons]
          constructor
          · intro _
            exact ⟨e.2, rfl, by simpa using hq⟩
          · intro _
            exact Or.inl hec.symm
        | false =>
          simp only [hb, hq, Bool.false_eq_true, if_false, if_true]
          constructor
          · intro hmem
            exact absurd (hec ▸ mem_map_fst_filter _ rest c hmem) hout
          · intro hex
            obtain ⟨r, hr, hchan⟩ := hex
            simp only [Option.some.injEq] at hr
            subst hr
            have hc2 : e.2.channels.contains ch = true := by simpa using hchan
            rw [hq] at hc2
            cases hc2
      | false =>
        have hec : e.1 ≠ c := by simpa using hb
        cases hq : e.2.channels.contains ch with
        | true =>
          simp only [hb, hq, if_true, Bool.false_eq_true, if_false,
            List.map_cons, List.mem_cons]
          rw [ih hnd1]
          constructor
          · intro hmem
            rcases hmem with hmem | hmem
            · exact absurd hmem.symm hec
            · exact hmem
          · intro hex
            exact Or.inr hex
        | false =>
          simp only [hb, hq, Bool.false_eq_true, if_false]
          exact ih hnd1
  exact main cm.connections hnd

/-- Unregistering always leaves the id out of every channel view. -/
theorem unregister_not_in_channel (cm : ClientManager) (cid ch : String) :
    cid ∉ getConnectionsByChannel (unregisterConnection cm cid).2 ch := by
  unfold unregisterConnection
  cases hg : mapGet cm.connections cid with
  | none =>
    simp only []
    intro hmem
    exact absurd (mem_map_fst_filter _ _ _ hmem) (mapGet_none_not_key _ _ hg)
  | some conn =>
    simp only []
    intro hmem
    unfold getConnectionsByChannel at hmem
    simp only [List.mem_map] at hmem
    obtain ⟨e, he, hfst⟩ := hmem
    have := mem_mapDelete_ne cm.connections cid e (List.mem_filter.mp he).1
    exact this.2 hfst

theorem registerConnection_ok_connections (cm : ClientManager)
    (cid k : String) (m now : Nat) (cm1 : ClientManager)
    (h : registerConnection cm cid k m now = .ok cm1) :
    cm1.connections = mapSet cm.connections cid
      { apiKey := k, channels := [], connectedAt := now } := by
  unfold registerConnection at h
  split at h
  · cases h
  · split at h
    · cases h
    · split at h
      · cases h
      · simp only [Except.ok.injEq] at h
        subst h
        rfl

theorem subscribeToChannel_ok_connections (cm : ClientManager)
    (cid ch : String) (cm1 : ClientManager)
    (h : subscribeToChannel cm cid ch = .ok cm1) :
    ∃ conn, cm1.connections = mapSet cm.connections cid conn := by
  unfold subscribeToChannel at h
  split at h
  · cases h
  · split at h
    · cases h
    · simp only [Except.ok.injEq] at h
      subst h
      exact ⟨_, rfl⟩

theorem revokeApiKey_ok_state (cm : ClientManager) (k : String)
    (client : ClientRecord) (cm1 : ClientManager)
    (hk : mapGet cm.apiKeys k = some client)
    (h : revokeApiKey cm k = .ok cm1) :
    cm1.connections = client.connections.foldl
      (fun m c => mapDelete m c) cm.connections := by
  unfold revokeApiKey at h
  rw [hk] at h
  simp only [Except.ok.injEq] at h
  subst h
  rfl

theorem mapSet_keys_mem {β : Type} (k : String) (v : β) (x : String) :
    ∀ (m : List (String × β)), x ∈ (mapSet m k v).map Prod.fst →
    x ∈ m.map Prod.fst ∨ x = k := by
  intro m
  induction m with
  | nil =>
    intro h
    simp only [mapSet, List.map_cons, List.map_nil, List.mem_singleton] at h
    exact Or.inr h
  | cons e rest ih =>
    intro h
    simp only [mapSet] at h
    split at h
    · simp only [List.map_cons, List.mem_cons] at h
      rcases h with h | h
      · exact Or.inr h
      · exact Or.inl (by simp [List.mem_cons]; exact Or.inr (by simpa using h))
    · simp only [List.map_cons, List.mem_cons] at h
      rcases h with h | h
      · exact Or.inl (by simp [h])
      · rcases ih h with h2 | h2
        · exact Or.inl (by simp [List.mem_cons]; exact Or.inr (by simpa using h2))
        · exact Or.inr h2

theorem mapSet_keys_nodup {β : Type} (k : String) (v : β) :
    ∀ (m : List (String × β)), (m.map Prod.fst).Nodup →
    ((mapSet m k v).map Prod.fst).Nodup := by
  intro m
  induction m with
  | nil => intro _; simp [mapSet]
  | cons e rest ih =>
    intro hnd
    simp only [List.map_cons, List.nodup_cons] at hnd
    obtain ⟨hout, hnd1⟩ := hnd
    simp only [mapSet]
    split
    · rename_i heq
      have hek : e.1 = k := by simpa using heq
      simp only [List.map_cons, List.nodup_cons]
      exact ⟨hek ▸ hout, hnd1⟩
    · rename_i hne
      have hek : e.1 ≠ k := by simpa using hne
      simp only [List.map_cons, List.nodup_cons]
      refine ⟨?_, ih hnd1⟩
      intro hmem
      rcases mapSet_keys_mem k v e.1 rest hmem with h | h
      · exact hout h
      · exact hek h

theorem mapDelete_keys_nodup {β : Type} (m : List (String × β)) (k : String)
    (h : (m.map Prod.fst).Nodup) : ((mapDelete m k).map Prod.fst).Nodup :=
  List.Nodup.sublist ((List.filter_sublist m).map Prod.fst) h

theorem foldl_mapDelete_keys_nodup {β : Type} :
    ∀ (L : List String) (m : List (String × β)),
    (m.map Prod.fst).Nodup →
    ((L.foldl (fun acc c => mapDelete acc c) m).map Prod.fst).Nodup := by
  intro L
  induction L with
  | nil => intro m h; exact h
  | cons x L ih =>
    intro m h
    simp only [List.foldl_cons]
    exact ih (mapDelete m x) (mapDelete_keys_nodup m x h)

/-- Every registry operation keeps the connections map's keys
duplicate-free (the Map invariant). -/
theorem applyRegOp_keys_nodup (cm : ClientManager) (op : RegOp)
    (h : (cm.connections.map Prod.fst).Nodup) :
    ((applyRegOp cm op).connections.map Prod.fst).Nodup := by
  cases op with
  | reg cid k m now =>
    simp only [applyRegOp]
    cases hr : registerConnection cm cid k m now with
    | ok cm1 =>
      rw [registerConnection_ok_connections cm cid k m now cm1 hr]
      exact mapSet_keys_nodup _ _ _ h
    | error e => exact h
  | unreg cid =>
    simp only [applyRegOp]
    unfold unregisterConnection
    cases mapGet cm.connections cid with
    | none => exact h
    | some conn => exact mapDelete_keys_nodup _ _ h
  | sub cid ch =>
    simp only [applyRegOp]
    cases hr : subscribeToChannel cm cid ch with
    | ok cm1 =>
      obtain ⟨conn, hc⟩ := subscribeToChannel_ok_connections cm cid ch cm1 hr
      rw [hc]
      exact mapSet_keys_nodup _ _ _ h
    | error e => exact h
  | unsub cid ch =>
    simp only [applyRegOp]
    unfold unsubscribeFromChannel
    cases mapGet cm.connections cid with
    | none => exact h
    | some conn => exact mapSet_keys_nodup _ _ _ h
  | revoke k =>
    simp only [applyRegOp]
    cases hr : revokeApiKey cm k with
    | ok cm1 =>
      cases hk : mapGet cm.apiKeys k with
      | none => unfold revokeApiKey at hr; rw [hk] at hr; cases hr
      | some client =>
        rw [revokeApiKey_ok_state cm k client cm1 hk hr]
        exact foldl_mapDelete_keys_nodup _ _ h
    | error e => exact h

theorem applyRegOps_keys_nodup (ops : List RegOp) :
    ∀ (cm : ClientManager), (cm.connections.map Prod.fst).Nodup →
    (((applyRegOps cm ops).connections.map Prod.fst)).Nodup := by
  induction ops with
  | nil => intro cm h; exact h
  | cons op rest ih =>
    intro cm h
    exact ih (applyRegOp cm op) (applyRegOp_keys_nodup cm op h)

/-- C6: the channel view is computed from the live connections map, so at
every reachable state (the Map keys stay duplicate-free under every
registry operation) it holds exactly the connection ids whose recorded
subscription Set holds the channel — never an id absent from the map;
unregistering a connection removes it from every channel view, and
revoking a key removes every connection in the key's Set from every
channel view. -/
theorem c6_channel_view_consistent (cm : ClientManager)
    (ch c cid ch2 ch3 k c3 : String) (client : ClientRecord)
    (cmr : ClientManager) (ops : List RegOp)
    (hnd : (cm.connections.map Prod.fst).Nodup)
    (hk : mapGet cm.apiKeys k = some client)
    (hrv : revokeApiKey cm k = .ok cmr)
    (hc3 : c3 ∈ client.connections) :
    (c ∈ getConnectionsByChannel cm ch ↔
      ∃ r, mapGet cm.connections c = some r ∧ ch ∈ r.channels) ∧
    cid ∉ getConnectionsByChannel (unregisterConnection cm cid).2 ch2 ∧
    c3 ∉ getConnectionsByChannel cmr ch3 ∧
    ((applyRegOps cm ops).connections.map Prod.fst).Nodup := by
  refine ⟨mem_getConnectionsByChannel cm ch c hnd,
    unregister_not_in_channel cm cid ch2, ?_,
    applyRegOps_keys_nodup ops cm hnd⟩
  intro hmem
  unfold getConnectionsByChannel at hmem
  simp only [List.mem_map] at hmem
  obtain ⟨e, he, hfst⟩ := hmem
  have hconn := revokeApiKey_ok_state cm k client cmr hk hrv
  have hin : e ∈ cmr.connections := (List.mem_filter.mp he).1
  rw [hconn] at hin
  obtain ⟨_, hnotin⟩ := mem_foldl_mapDelete client.connections cm.connections e hin
  exact hnotin (hfst ▸ hc3)

/-- The state after revoking the only key of cmAtLimit. -/
def cmRevoked : ClientManager := { apiKeys := [], connections := [] }

/-- Witness for C6 at cmAtLimit: connection c0 of key k1 is subscribed to
channel news; it leaves every view on unregistration and on revocation of
k1, and a sample operation run keeps the Map keys duplicate-free. -/
theorem c6_channel_view_consistent_witness :
    ("c0" ∈ getConnectionsByChannel cmAtLimit "news" ↔
      ∃ r, mapGet cmAtLimit.connections "c0" = some r ∧ "news" ∈ r.channels) ∧
    "c0" ∉ getConnectionsByChannel (unregisterConnection cmAtLimit "c0").2 "news" ∧
    "c0" ∉ getConnectionsByChannel cmRevoked "news" ∧
    ((applyRegOps cmAtLimit
        [RegOp.sub "c0" "alerts", RegOp.unreg "c0",
         RegOp.reg "c1" "k1" 5 9, RegOp.revoke "k1"]).connections.map
      Prod.fst).Nodup :=
  c6_channel_view_consistent cmAtLimit "news" "c0" "c0" "news" "news" "k1" "c0"
    clientK1 cmRevoked
    [RegOp.sub "c0" "alerts", RegOp.unreg "c0",
     RegOp.reg "c1" "k1" 5 9, RegOp.revoke "k1"]
    (by decide) (by decide) (by decide) (by decide)

/-!
NotificationWebSocketServer (src/websocket/wsServer.js).  The closure
variables of ##handleConnection (`apiKey`, `isAuthenticated`) plus the
socket's open/closed state form the per-connection state; one call of the
message handler (the `ws.on` message callback wrapping ##handleMessage)
becomes one step, returning the new registry, the new connection state
and the frames written to the socket.
-/

/-- The per-connection closure state of ##handleConnection (lines 52-54)
plus whether the transport is still open. -/
structure ConnState where
  isAuthenticated : Bool
  apiKey : Option String
  socketOpen : Bool
  deriving Repr, DecidableEq

/-- The state of a connection just accepted (lines 52-54). -/
def connStart : ConnState :=
  { isAuthenticated := false, apiKey := none, socketOpen := true }

/-- The client-to-server frames of the wire protocol (§6). -/
inductive ClientMsg where
  | authenticate (apiKey : String)
  | subscribe (channel : String)
  | unsubscribe (channel : String)
  | ping
  | unknownType
  deriving Repr, DecidableEq

/-- The server-to-client frames the step can write: protocol replies and
the in-band error JSON that ErrorHandler.handleWebSocketError sends. -/
inductive ServerMsg where
  | authenticated (success : Bool)
  | subscribed (success : Bool) (channel : String)
  | unsubscribed (success : Bool) (channel : String)
  | pong
  | inbandError (e : SvcError)
  deriving Repr, DecidableEq

/-- One round of the message callback (wsServer.js lines 71-84) around
##handleMessage (lines 113-147), for a connection whose socket is open:

* authenticate (lines 152-181): registerConnection; on success reply
  authenticated success (the callback then sets the closure flags, but
  only when not already authenticated — lines 77-80); on failure reply
  authenticated failure, close the socket and rethrow — the outer catch
  then finds the socket closed and writes nothing more.  Nothing guards
  against a second authenticate: ##handleMessage calls
  ##handleAuthenticate in every state.
* subscribe/unsubscribe before authentication (lines 127-128, 134-135):
  AuthenticationError thrown, caught by the callback, sent in-band; the
  socket stays open and nothing else changes.
* subscribe when authenticated (lines 186-212): on a registry error,
  reply subscribed failure and rethrow, so the outer catch also sends the
  in-band error.
* unsubscribe when authenticated (lines 217-242): never rethrows.
* ping (line 141) and unknown types (line 145). -/
def wsMessageStep (cm : ClientManager) (st : ConnState)
    (connectionId : String) (msg : ClientMsg) (maxClients now : Nat) :
    ClientManager × ConnState × List ServerMsg :=
  match msg with
  | .authenticate k =>
    match registerConnection cm connectionId k maxClients now with
    | .ok cm1 =>
      (cm1,
       if st.isAuthenticated then st
       else { st with isAuthenticated := true, apiKey := some k },
       [ServerMsg.authenticated true])
    | .error _ =>
      (cm, { st with socketOpen := false }, [ServerMsg.authenticated false])
  | .subscribe ch =>
    if st.isAuthenticated = false then
      (cm, st, [ServerMsg.inbandError SvcError.authentication])
    else
      match subscribeToChannel cm connectionId ch with
      | .ok cm1 => (cm1, st, [ServerMsg.subscribed true ch])
      | .error e =>
        (cm, st, [ServerMsg.subscribed false ch, ServerMsg.inbandError e])
  | .unsubscribe ch =>
    if st.isAuthenticated = false then
      (cm, st, [ServerMsg.inbandError SvcError.authentication])
    else
      ((unsubscribeFromChannel cm connectionId ch).2, st,
        [ServerMsg.unsubscribed true ch])
  | .ping => (cm, st, [ServerMsg.pong])
  | .unknownType => (cm, st, [ServerMsg.inbandError SvcError.validation])

/-- A registry with two valid keys and no connections, and the two
authentication rounds of one connection c against it. -/
def cmTwoKeys : ClientManager :=
  { apiKeys := [("k1", { name := "one", connections := [], stats := stats0 }),
                ("k2", { name := "two", connections := [], stats := stats0 })]
    connections := [] }

def wsC7a : ClientManager × ConnState × List ServerMsg :=
  wsMessageStep cmTwoKeys connStart "c" (ClientMsg.authenticate "k1") 1000 0

def wsC7b : ClientManager × ConnState × List ServerMsg :=
  wsMessageStep wsC7a.1 wsC7a.2.1 "c" (ClientMsg.authenticate "k2") 1000 1

/-- C7 (code bug): a second authenticate with a different valid key is
accepted (##handleMessage never guards the authenticate transition), and
registerConnection overwrites the connection's map entry with the new key
while the old key's connection Set keeps the id — nothing ever removes it.
After connection c authenticates with k1 and then with k2, c sits in the
connection Sets of BOTH keys while its map entry names k2, so c is not
associated with exactly one API key. -/
theorem c7_reauthenticate_two_owners :
    (mapGet wsC7b.1.apiKeys "k1").map (fun r => r.connections) = some ["c"] ∧
    (mapGet wsC7b.1.apiKeys "k2").map (fun r => r.connections) = some ["c"] ∧
    (mapGet wsC7b.1.connections "c").map (fun r => r.apiKey) = some "k2" ∧
    wsC7b.2.1.apiKey = some "k1" := by
  refine ⟨?_, ?_, ?_, ?_⟩ <;> decide

/-- C9: a subscribe or unsubscribe received before authentication is
answered in-band with the AuthenticationError on the same connection; the
registry and the connection state are untouched and the socket stays open
(only a failed authenticate closes it). -/
theorem c9_unauthenticated_subscribe_inband (cm : ClientManager)
    (st : ConnState) (cid ch : String) (maxClients now : Nat)
    (hauth : st.isAuthenticated = false) (hopen : st.socketOpen = true) :
    wsMessageStep cm st cid (ClientMsg.subscribe ch) maxClients now
      = (cm, st, [ServerMsg.inbandError SvcError.authentication]) ∧
    wsMessageStep cm st cid (ClientMsg.unsubscribe ch) maxClients now
      = (cm, st, [ServerMsg.inbandError SvcError.authentication]) ∧
    (wsMessageStep cm st cid (ClientMsg.subscribe ch) maxClients now).2.1.socketOpen
      = true := by
  unfold wsMessageStep
  rw [hauth]
  simp [hopen]

/-- Witness for C9 on a freshly connected, unauthenticated socket. -/
theorem c9_unauthenticated_subscribe_inband_witness :
    wsMessageStep cmTwoKeys connStart "c" (ClientMsg.subscribe "x") 1000 0
      = (cmTwoKeys, connStart, [ServerMsg.inbandError SvcError.authentication]) ∧
    wsMessageStep cmTwoKeys connStart "c" (ClientMsg.unsubscribe "x") 1000 0
      = (cmTwoKeys, connStart, [ServerMsg.inbandError SvcError.authentication]) ∧
    (wsMessageStep cmTwoKeys connStart "c"
        (ClientMsg.subscribe "x") 1000 0).2.1.socketOpen = true :=
  c9_unauthenticated_subscribe_inband cmTwoKeys connStart "c" "x" 1000 0
    (by decide) (by decide)

/-- A high-priority early submission and a low-priority later one: after
sorting, the LAST array entry is the low-priority, later item, not the
oldest one. -/
def nHigh : Notification :=
  { id := "h", channel := "ch", hasData := true, priority := some 10 }

def nLow : Notification :=
  { id := "l", channel := "ch", hasData := true, priority := some 1 }

def itemHigh : QueueItem :=
  { id := "h", notification := nHigh, priority := 10, enqueuedAt := 0,
    expiresAt := 1000, attempts := 0 }

def itemLow : QueueItem :=
  { id := "l", notification := nLow, priority := 1, enqueuedAt := 5,
    expiresAt := 1005, attempts := 0 }

def qC8 : NotificationQueue :=
  { queue := [itemHigh, itemLow], maxSize := 100, messageExpiry := 1000 }

/-- C8 (code bug): getStats computes `now - queue[queue.length - 1]
.enqueuedAt`, the age of the LAST entry of the priority-sorted array (the
lowest-priority, most recent of that band), not the age of the
earliest-enqueued item.  Reachable state: enqueue h (priority 10) at t=0
and l (priority 1) at t=5; at now=10 the oldest message is 10ms old
(minimum enqueuedAt 0) but getStats reports 5.  The empty-queue value 0
does match the claim. -/
theorem c8_oldest_message_is_last_entry :
    enqueueAll (emptyQueue 100 1000) [(nHigh, 0), (nLow, 5)] = .ok qC8 ∧
    (qC8.queue.map (fun it => it.enqueuedAt)).min? = some 0 ∧
    (getStats qC8 10).oldestMessage = 5 ∧
    (getStats qC8 10).oldestMessage ≠ 10 - 0 ∧
    (getStats (emptyQueue 100 1000) 10).oldestMessage = 0 := by
  refine ⟨?_, by decide, by decide, by decide, by decide⟩
  simp [enqueueAll, enqueue, validateNotification, sortQueue, List.mergeSort,
    nHigh, nLow, emptyQueue, jsOrDefault, qC8, List.merge, itemLE,
    List.splitInTwo, itemHigh, itemLow]

/-- NotificationService#sendNotification (notificationQueue.js lines
251-309): validate the API key, require a truthy channel and data, build
the notification with `priority: priority || 5` and the fresh uuid,
enqueue it, and bump the key's notification stats.  Errors propagate to
the caller; the processing-loop kick (fire-and-forget) is not part of the
returned value, which carries the new states, the notification id and
the queue size. -/
def sendNotification (cm : ClientManager) (q : NotificationQueue)
    (channel : String) (hasData : Bool) (priority : Option Int)
    (apiKey newId : String) (now : Nat) :
    Except SvcError (ClientManager × NotificationQueue × String × Nat) :=
  match validateApiKey cm apiKey with
  | .error e => .error e
  | .ok _ =>
    if channel = "" then .error .validation
    else if hasData = false then .error .validation
    else
      match enqueue q
          { id := newId, channel := channel, hasData := hasData,
            priority := some (jsOrDefault priority 5) } now with
      | .error e => .error e
      | .ok r =>
        .ok (updateNotificationStats cm apiKey now, r.2, newId,
          r.2.queue.length)

/-- C10: a submission with priority 0 and a valid key, channel and data
is NOT rejected by validation even though 0 lies outside [1,10]: the
falsy 0 is replaced by the default 5 (`priority || 5`) before the
notification is built, so the call succeeds and the entry is queued at
priority 5. -/
theorem c10_priority_zero_defaults_to_five (cm : ClientManager)
    (q : NotificationQueue) (channel apiKey newId : String) (now : Nat)
    (hkey : validateApiKey cm apiKey = .ok ())
    (hch : channel ≠ "") (hid : newId ≠ "")
    (hroom : q.queue.length < q.maxSize) :
    ∃ cm1 q1 sz, sendNotification cm q channel true (some 0) apiKey newId now
        = .ok (cm1, q1, newId, sz) ∧
      ∃ it ∈ q1.queue, it.id = newId ∧ it.priority = 5 := by
  have hjs : jsOrDefault (some 0) 5 = 5 := rfl
  have hval : validateNotification
      { id := newId, channel := channel, hasData := true,
        priority := some (jsOrDefault (some 0) 5) } = .ok () := by
    unfold validateNotification
    rw [hjs]
    rw [if_neg hid, if_neg hch]
    norm_num
  have henq : enqueue q
      { id := newId, channel := channel, hasData := true,
        priority := some (jsOrDefault (some 0) 5) } now
      = .ok
        ({ id := newId,
           notification :=
             { id := newId, channel := channel, hasData := true,
               priority := some (jsOrDefault (some 0) 5) },
           priority := 5, enqueuedAt := now,
           expiresAt := now + q.messageExpiry, attempts := 0 },
         { q with queue := sortQueue (q.queue ++
            [{ id := newId,
               notification :=
                 { id := newId, channel := channel, hasData := true,
                   priority := some (jsOrDefault (some 0) 5) },
               priority := 5, enqueuedAt := now,
               expiresAt := now + q.messageExpiry, attempts := 0 }]) }) := by
    unfold enqueue
    rw [hval]
    rw [if_neg (Nat.not_le.mpr hroom)]
    rfl
  unfold sendNotification
  rw [hkey, if_neg hch]
  simp only [Bool.true_eq_false, if_false, henq]
  refine ⟨_, _, _, rfl, ?_⟩
  refine ⟨{ id := newId,
            notification :=
              { id := newId, channel := channel, hasData := true,
                priority := some (jsOrDefault (some 0) 5) },
            priority := 5, enqueuedAt := now,
            expiresAt := now + q.messageExpiry, attempts := 0 },
    ?_, rfl, rfl⟩
  rw [mem_sortQueue]
  exact List.mem_append_right _ (List.mem_singleton_self _)

/-- Witness for C10 on the two-key registry and an empty queue. -/
theorem c10_priority_zero_defaults_to_five_witness :
    ∃ cm1 q1 sz,
      sendNotification cmTwoKeys (emptyQueue 10 1000) "updates" true (some 0)
        "k2" "u1" 3 = .ok (cm1, q1, "u1", sz) ∧
      ∃ it ∈ q1.queue, it.id = "u1" ∧ it.priority = 5 :=
  c10_priority_zero_defaults_to_five cmTwoKeys (emptyQueue 10 1000) "updates"
    "k2" "u1" 3 (by decide) (by decide) (by decide) (by decide)

end NotifSvc
